import Mathlib

/-!
Verification of the relationship-path search engine of the gedcom-parser
repository (src/gedcom_mcp/gedcom_search.py and gedcom_models.py).

The graph provider boundary (gedcom_data_access.py, gedcom_utils.py) is
modelled as injected lookup functions on a context record, exactly the data
those functions return: per-person relationship records (gender, parents,
spouses, children), optional birth years, and person detail records.
Process-scoped caches in the source memoize pure computations keyed on all
of their inputs, so they are semantically transparent and the embedding
uses the underlying pure functions directly.
-/

/-- Mirror of `PersonRelationships` (gedcom_models.py): the record returned by
`_get_person_relationships_internal`, with parents/spouses/children already
sorted at creation. -/
structure PersonRelationships where
  id : String
  gender : Option String
  parents : List String
  spouses : List String
  children : List String
deriving DecidableEq, Repr

/-- Mirror of the fields of `PersonDetails` (gedcom_models.py) consumed by the
search module: `name` by the describer and `gender` by the relationship
labeler.  The remaining fields (dates, places, occupation) are never read by
gedcom_search.py. -/
structure PersonDetails where
  id : String
  name : String
  gender : Option String
deriving DecidableEq, Repr

/-- The session context (`gedcom_ctx`).  `hasParser` is the truthiness of
`gedcom_ctx.gedcom_parser`; the three lookups abstract the record store
behind `_get_person_relationships_internal`, `extract_birth_year` and
`get_person_record` when a parser is loaded. -/
structure GedcomCtx where
  hasParser : Bool
  relsOf : String → Option PersonRelationships
  birthYearOf : String → Option Int
  personOf : String → Option PersonDetails

/-- Mirror of `_get_person_relationships_internal` (gedcom_data_access.py) at
the provider boundary: returns none when no parser is loaded or the person is
unknown. -/
def getPersonRelationshipsInternal (ctx : GedcomCtx) (personId : String) :
    Option PersonRelationships :=
  if ctx.hasParser then ctx.relsOf personId else none

/-- Mirror of `get_person_record` (gedcom_data_access.py) at the provider
boundary. -/
def getPersonRecord (ctx : GedcomCtx) (personId : String) :
    Option PersonDetails :=
  if ctx.hasParser then ctx.personOf personId else none

/-- Mirror of `extract_birth_year` (gedcom_utils.py) at the provider
boundary. -/
def extractBirthYear (ctx : GedcomCtx) (personId : String) : Option Int :=
  if ctx.hasParser then ctx.birthYearOf personId else none

/-- Constant `BIRTH_YEAR_PROXIMITY_THRESHOLD` of gedcom_models.py. -/
def BIRTH_YEAR_PROXIMITY_THRESHOLD : Int := 500

/-- Constant `BIRTH_YEAR_HEURISTIC_FACTOR` of gedcom_models.py (25.0). -/
def BIRTH_YEAR_HEURISTIC_FACTOR : Rat := 25

/-- Constant `NO_BIRTH_YEAR_PENALTY` of gedcom_models.py. -/
def NO_BIRTH_YEAR_PENALTY : Int := 9999

/-- Constant `HAS_BIRTH_YEAR_BONUS` of gedcom_models.py. -/
def HAS_BIRTH_YEAR_BONUS : Int := 5000

/-- Mirror of the `NodePriority` dataclass (gedcom_models.py).  The float
field `_adjusted_distance` is modelled as a rational; all values the search
actually stores in it are small integers, which doubles represent exactly. -/
structure NodePriority where
  distance : Nat
  personId : String
  path : List String
  targetBirthYear : Option Int
  adjustedDistance : Rat
  birthYearDistance : Int
deriving DecidableEq, Repr

/-- Mirror of `NodePriority.__post_init__`: constructing an entry only sets
the sentinel defaults (`NO_BIRTH_YEAR_PENALTY`, `float(self.distance)`);
the docstring directs callers to invoke `init_heuristics` afterwards. -/
def mkNodePriority (distance : Nat) (personId : String) (path : List String)
    (targetBirthYear : Option Int) : NodePriority :=
  { distance := distance
    personId := personId
    path := path
    targetBirthYear := targetBirthYear
    birthYearDistance := NO_BIRTH_YEAR_PENALTY
    adjustedDistance := (distance : Rat) }

/-- Mirror of `NodePriority.init_heuristics`: recomputes the birth-year gap
and the adjusted distance from the context.  (The body of the source method
performs the same computation twice in a row; the second pass overwrites the
first with identical values, so one pass is an exact model.) -/
def NodePriority.initHeuristics (np : NodePriority) (ctx : GedcomCtx) :
    NodePriority :=
  let birthYear := extractBirthYear ctx np.personId
  let gap : Int :=
    match birthYear, np.targetBirthYear with
    | some by_, some target => (by_ - target).natAbs
    | some _, none => HAS_BIRTH_YEAR_BONUS
    | none, _ => NO_BIRTH_YEAR_PENALTY
  let adjusted : Rat :=
    if gap < BIRTH_YEAR_PROXIMITY_THRESHOLD then
      (np.distance : Rat) + (gap : Rat) / BIRTH_YEAR_HEURISTIC_FACTOR
    else (np.distance : Rat)
  { np with birthYearDistance := gap, adjustedDistance := adjusted }

/-- Code-point lexicographic comparison of character lists: the order Python
applies to strings. -/
def charListLt : List Char → List Char → Bool
  | [], [] => false
  | [], _ :: _ => true
  | _ :: _, [] => false
  | a :: as, b :: bs =>
    if a < b then true else if b < a then false else charListLt as bs

/-- Strict string comparison by code points (`<` on Python strings), carried
out on the character data. -/
def strLt (a b : String) : Bool :=
  charListLt a.data b.data

/-- String comparison `a <= b` of the linear code-point order. -/
def strLe (a b : String) : Bool :=
  !(strLt b a)

/-- Mirror of `NodePriority.__lt__`: lexicographic comparison of
`(_adjusted_distance, _birth_year_distance, person_id)`. -/
def NodePriority.ltb (a b : NodePriority) : Bool :=
  if a.adjustedDistance ≠ b.adjustedDistance then
    decide (a.adjustedDistance < b.adjustedDistance)
  else if a.birthYearDistance ≠ b.birthYearDistance then
    decide (a.birthYearDistance < b.birthYearDistance)
  else strLt a.personId b.personId

/-- Stable string sort used to model the Python builtin `sorted` on a set of
person ids (lexicographic by code point). -/
def sortStrings (l : List String) : List String :=
  l.insertionSort (fun a b => strLe a b = true)

/-- The parent block of `_get_person_neighbors_lazy` (gedcom_search.py lines
443-461): one edge per resolvable parent, gender-filtered when only
`mother`/`father` are enabled, labelled with the literal kind used. -/
def parentNeighbors (ctx : GedcomCtx) (rels : PersonRelationships)
    (allowed : List String) : List (String × Nat × String) :=
  if "parent" ∈ allowed ∨ "mother" ∈ allowed ∨ "father" ∈ allowed then
    rels.parents.filterMap (fun parentId =>
      match getPersonRelationshipsInternal ctx parentId with
      | none => none
      | some parentRels =>
        if "parent" ∈ allowed then some (parentId, 1, "parent")
        else if "mother" ∈ allowed ∧ parentRels.gender = some "F" then
          some (parentId, 1, "mother")
        else if "father" ∈ allowed ∧ parentRels.gender = some "M" then
          some (parentId, 1, "father")
        else none)
  else []

/-- The child block of `_get_person_neighbors_lazy` (lines 464-465). -/
def childNeighbors (rels : PersonRelationships) (allowed : List String)
    (excludeSpouseChildren : Bool) : List (String × Nat × String) :=
  if "child" ∈ allowed ∧ ¬excludeSpouseChildren then
    rels.children.map (fun childId => (childId, 1, "child"))
  else []

/-- The spouse block of `_get_person_neighbors_lazy` (lines 468-469). -/
def spouseNeighbors (rels : PersonRelationships) (allowed : List String)
    (excludeSpouseChildren : Bool) : List (String × Nat × String) :=
  if "spouse" ∈ allowed ∧ ¬excludeSpouseChildren then
    rels.spouses.map (fun spouseId => (spouseId, 1, "spouse"))
  else []

/-- The sibling block of `_get_person_neighbors_lazy` (lines 472-484): the
union over each parent of that parent's children minus the person, sorted for
determinism. -/
def siblingNeighbors (ctx : GedcomCtx) (personId : String)
    (rels : PersonRelationships) (allowed : List String) :
    List (String × Nat × String) :=
  if "sibling" ∈ allowed then
    let sibs :=
      (rels.parents.flatMap (fun parentId =>
        match getPersonRelationshipsInternal ctx parentId with
        | some parentRels => parentRels.children.filter (· ≠ personId)
        | none => [])).dedup
    (sortStrings sibs).map (fun siblingId => (siblingId, 1, "sibling"))
  else []

/-- Mirror of `_get_person_neighbors_lazy` (gedcom_search.py lines 415-488):
edges `(neighbor, weight, kind)` of a person under an enabled relationship
filter, with the spouse/child exclusion flag.  The neighbor cache memoizes
this pure computation keyed on all inputs and is therefore omitted. -/
def getPersonNeighborsLazy (ctx : GedcomCtx) (personId : String)
    (allowed : List String) (excludeSpouseChildren : Bool) :
    List (String × Nat × String) :=
  if ctx.hasParser then
    match getPersonRelationshipsInternal ctx personId with
    | none => []
    | some rels =>
      parentNeighbors ctx rels allowed
        ++ childNeighbors rels allowed excludeSpouseChildren
        ++ spouseNeighbors rels allowed excludeSpouseChildren
        ++ siblingNeighbors ctx personId rels allowed
  else []

/-- Mirror of `_get_person_neighbors_lazy_reverse` (gedcom_search.py lines
491-494): the backward search delegates to the forward neighbor function
because family edges are bidirectional. -/
def getPersonNeighborsLazyReverse (ctx : GedcomCtx) (personId : String)
    (allowed : List String) (excludeSpouseChildren : Bool) :
    List (String × Nat × String) :=
  getPersonNeighborsLazy ctx personId allowed excludeSpouseChildren

/-- The neighbor-enqueueing inner loop of `check_component_connectivity`
(gedcom_search.py lines 393-396): append each not-yet-visited neighbor to the
queue and the visited set. -/
def enqueueUnvisited : List (String × Nat × String) → List String →
    List String → List String × List String
  | [], queue, visited => (queue, visited)
  | (neighborId, _, _) :: rest, queue, visited =>
    if neighborId ∈ visited then enqueueUnvisited rest queue visited
    else enqueueUnvisited rest (queue ++ [neighborId]) (visited ++ [neighborId])

/-- Exit report of the BFS loop of `check_component_connectivity`: either the
target was popped (immediate `True` return), or the loop ended with the given
queue, visited set and remaining node budget. -/
inductive ConnExit where
  | foundTarget
  | ended (queue : List String) (visited : List String) (remaining : Nat)
deriving DecidableEq, Repr

/-- The BFS loop of `check_component_connectivity` (lines 381-396).  The
remaining budget is `max_depth - nodes_visited`; the loop runs while the
queue is nonempty and budget remains, and each iteration pops the queue head
and consumes one unit of budget. -/
def cccLoop (ctx : GedcomCtx) (allowed : List String) (target : String) :
    List String → List String → Nat → ConnExit
  | queue, visited, 0 => .ended queue visited 0
  | [], visited, remaining + 1 => .ended [] visited (remaining + 1)
  | current :: rest, visited, remaining + 1 =>
    if current = target then .foundTarget
    else
      let neighbors := getPersonNeighborsLazy ctx current allowed false
      let (queue2, visited2) := enqueueUnvisited neighbors rest visited
      cccLoop ctx allowed target queue2 visited2 remaining

/-- Mirror of `check_component_connectivity` (gedcom_search.py lines
364-412): bounded unweighted BFS returning `some true` when the target is
encountered, `none` when the node budget was exhausted, and otherwise whether
the target is in the visited set. -/
def checkComponentConnectivity (ctx : GedcomCtx) (person1Id person2Id : String)
    (allowed : List String) (maxDepth : Nat) : Option Bool :=
  if person1Id = person2Id then some true
  else
    match cccLoop ctx allowed person2Id [person1Id] [person1Id] maxDepth with
    | .foundTarget => some true
    | .ended _ visited remaining =>
      if remaining = 0 then none else some (decide (person2Id ∈ visited))

/-- Pop of the minimum entry of a priority queue (Python `heapq.heappop`): the
leftmost entry minimal in the `NodePriority` order.  Ties in the full
comparison key imply equal person and distance, so any choice among them is
observationally equivalent; the leftmost is taken for determinism. -/
def pqPopMin : List NodePriority → Option (NodePriority × List NodePriority)
  | [] => none
  | x :: xs =>
    match pqPopMin xs with
    | none => some (x, [])
    | some (m, rest) =>
      if NodePriority.ltb m x then some (m, x :: rest) else some (x, xs)

/-- Minimum pending distance of a queue (`forward_pq[0].distance`); `none`
stands for the `float('infinity')` used when the queue is empty. -/
def pqMinDistance (pq : List NodePriority) : Option Nat :=
  match pqPopMin pq with
  | none => none
  | some (m, _) => some m.distance

/-- Lookup in a distance map modelled as a cons-shadowed association list;
`none` is the default infinity of the `InfinityDict`. -/
def distLookup (m : List (String × Nat)) (k : String) : Option Nat :=
  match m.find? (fun p => p.1 = k) with
  | some p => some p.2
  | none => none

/-- Strict comparison `a < b` where `b` may be the infinity default. -/
def ltInf (a : Nat) (b : Option Nat) : Bool :=
  match b with
  | none => true
  | some x => a < x

/-- Comparison `a > b` where `b` may be the infinity default. -/
def gtInf (a : Nat) (b : Option Nat) : Bool :=
  match b with
  | none => false
  | some x => decide (x < a)

/-- Addition of two possibly-infinite distances. -/
def addInf (a b : Option Nat) : Option Nat :=
  match a, b with
  | some x, some y => some (x + y)
  | _, _ => none

/-- Strict comparison of two possibly-infinite distances. -/
def ltInfInf (a b : Option Nat) : Bool :=
  match a, b with
  | some x, some y => x < y
  | some _, none => true
  | none, _ => false

/-- The per-direction mutable state of `_dijkstra_bidirectional_search`
(lines 77-107): distance maps with infinity default, predecessor maps,
visited sets, priority queues, and the best/fallback meeting points. -/
structure SearchState where
  fDist : List (String × Nat)
  bDist : List (String × Nat)
  fPrev : List (String × String × String)
  bPrev : List (String × String × String)
  fVisited : List String
  bVisited : List String
  fPq : List NodePriority
  bPq : List NodePriority
  bestDistance : Option Nat
  meetingNode : Option String
  shortestDistance : Option Nat
  shortestMeetingNode : Option String

/-- The read-only parameters threaded through the search loop:
post-swap endpoints, filter, exclusion flag, bounds and anchor birth years. -/
structure SearchParams where
  ctx : GedcomCtx
  allowed : List String
  startNode : String
  endNode : String
  excludeInitial : Bool
  effectiveMaxDistance : Nat
  minDistance : Nat
  strictMinDistance : Bool
  targetBirthYear : Option Int
  startBirthYear : Option Int

/-- The stop conditions at the top of each loop iteration (gedcom_search.py
lines 110-145), in source order.  The float comparison
`min_forward + min_backward > effective_max_distance * 1.2` is modelled
exactly as `5 * sum > 6 * effective_max_distance`: for the integer operands
and the bounded (≤ 100) limit involved, the double computation decides
precisely this rational comparison. -/
def shouldStop (p : SearchParams) (st : SearchState) : Bool :=
  let mf := pqMinDistance st.fPq
  let mb := pqMinDistance st.bPq
  if st.fPq ≠ [] ∧ st.bPq ≠ [] ∧
      5 * (mf.getD 0 + mb.getD 0) > 6 * p.effectiveMaxDistance then true
  else if st.fPq = [] ∧ st.bPq = [] then true
  else if st.fPq = [] ∧ st.bestDistance = none then true
  else if st.bPq = [] ∧ st.bestDistance = none then true
  else
    match st.bestDistance with
    | some best =>
      match addInf mf mb with
      | some s => decide (s ≥ best)
      | none => true
    | none => false

/-- The neighbor-relaxation loop of a forward expansion (lines 204-214):
skip visited neighbors, relax the tentative distance, record the
predecessor edge and push a fresh `NodePriority` (whose heuristic fields
stay at the `__post_init__` defaults). -/
def relaxForward (p : SearchParams) (current : NodePriority) :
    List (String × Nat × String) → SearchState → SearchState
  | [], st => st
  | (neighbor, weight, relType) :: rest, st =>
    if neighbor ∈ st.fVisited then relaxForward p current rest st
    else
      let distance := current.distance + weight
      if ltInf distance (distLookup st.fDist neighbor) then
        relaxForward p current rest
          { st with
            fDist := (neighbor, distance) :: st.fDist
            fPrev := (neighbor, current.personId, relType) :: st.fPrev
            fPq := st.fPq ++
              [mkNodePriority distance neighbor (current.path ++ [neighbor])
                p.targetBirthYear] }
      else relaxForward p current rest st

/-- The neighbor-relaxation loop of a backward expansion (lines 271-281). -/
def relaxBackward (p : SearchParams) (current : NodePriority) :
    List (String × Nat × String) → SearchState → SearchState
  | [], st => st
  | (neighbor, weight, relType) :: rest, st =>
    if neighbor ∈ st.bVisited then relaxBackward p current rest st
    else
      let distance := current.distance + weight
      if ltInf distance (distLookup st.bDist neighbor) then
        relaxBackward p current rest
          { st with
            bDist := (neighbor, distance) :: st.bDist
            bPrev := (neighbor, current.personId, relType) :: st.bPrev
            bPq := st.bPq ++
              [mkNodePriority distance neighbor (current.path ++ [neighbor])
                p.startBirthYear] }
      else relaxBackward p current rest st

/-- One forward step of the loop body (lines 150-214).  The returned flag is
true when the body executed a `break` (a meeting point was accepted). -/
def stepForward (p : SearchParams) (st : SearchState) : SearchState × Bool :=
  match pqPopMin st.fPq with
  | none => (st, true)
  | some (current, restPq) =>
    let st := { st with fPq := restPq }
    if current.personId ∈ st.fVisited then (st, false)
    else if gtInf current.distance (distLookup st.fDist current.personId) then
      (st, false)
    else
      let st := { st with fVisited := st.fVisited ++ [current.personId] }
      let afterMeeting :=
        if current.personId ∈ st.bVisited then
          let total := addInf (distLookup st.fDist current.personId)
            (distLookup st.bDist current.personId)
          let st :=
            if ltInfInf total st.shortestDistance then
              { st with shortestDistance := total
                        shortestMeetingNode := some current.personId }
            else st
          match total with
          | some t =>
            if t ≥ p.minDistance ∧ ltInf t st.bestDistance then
              ({ st with bestDistance := some t
                         meetingNode := some current.personId }, true)
            else if p.minDistance = 0 ∧ ltInf t st.bestDistance then
              ({ st with bestDistance := some t
                         meetingNode := some current.personId }, true)
            else (st, false)
          | none => (st, false)
        else (st, false)
      match afterMeeting with
      | (st, true) => (st, true)
      | (st, false) =>
        if current.distance ≥ p.effectiveMaxDistance / 2 then (st, false)
        else if (match st.bestDistance with
                 | some best => decide (current.distance ≥ best)
                 | none => false) then (st, false)
        else
          let excludeForThisNode :=
            p.excludeInitial ∧ current.personId = p.startNode
          let neighbors := getPersonNeighborsLazy p.ctx current.personId
            p.allowed excludeForThisNode
          (relaxForward p current neighbors st, false)

/-- One backward step of the loop body (lines 216-281), using the reverse
neighbor function and the end-node exclusion. -/
def stepBackward (p : SearchParams) (st : SearchState) : SearchState × Bool :=
  match pqPopMin st.bPq with
  | none => (st, true)
  | some (current, restPq) =>
    let st := { st with bPq := restPq }
    if current.personId ∈ st.bVisited then (st, false)
    else if gtInf current.distance (distLookup st.bDist current.personId) then
      (st, false)
    else
      let st := { st with bVisited := st.bVisited ++ [current.personId] }
      let afterMeeting :=
        if current.personId ∈ st.fVisited then
          let total := addInf (distLookup st.fDist current.personId)
            (distLookup st.bDist current.personId)
          let st :=
            if ltInfInf total st.shortestDistance then
              { st with shortestDistance := total
                        shortestMeetingNode := some current.personId }
            else st
          match total with
          | some t =>
            if t ≥ p.minDistance ∧ ltInf t st.bestDistance then
              ({ st with bestDistance := some t
                         meetingNode := some current.personId }, true)
            else if p.minDistance = 0 ∧ ltInf t st.bestDistance then
              ({ st with bestDistance := some t
                         meetingNode := some current.personId }, true)
            else (st, false)
          | none => (st, false)
        else (st, false)
      match afterMeeting with
      | (st, true) => (st, true)
      | (st, false) =>
        if current.distance ≥ p.effectiveMaxDistance / 2 then (st, false)
        else if (match st.bestDistance with
                 | some best => decide (current.distance ≥ best)
                 | none => false) then (st, false)
        else
          let excludeForThisNode :=
            p.excludeInitial ∧ current.personId = p.endNode
          let neighbors := getPersonNeighborsLazyReverse p.ctx current.personId
            p.allowed excludeForThisNode
          (relaxBackward p current neighbors st, false)

/-- Side selection and body of one loop iteration (lines 147-281): expand the
forward side when its visited count does not exceed the backward count (or
the backward queue is empty), otherwise the backward side. -/
def doStep (p : SearchParams) (st : SearchState) : SearchState × Bool :=
  if st.fPq ≠ [] ∧ (st.bPq = [] ∨ st.fVisited.length ≤ st.bVisited.length) then
    stepForward p st
  else stepBackward p st

/-- The main search loop (lines 109-298), fuel-indexed.  The wall-clock time
ceiling (line 295, unreachable in a shallow embedding of terminating runs) is
not modelled; all other stop conditions are checked in source order each
iteration. -/
def searchLoop (p : SearchParams) : Nat → SearchState → SearchState
  | 0, st => st
  | fuel + 1, st =>
    if st.fPq = [] ∧ st.bPq = [] then st
    else if shouldStop p st then st
    else
      match doStep p st with
      | (st2, true) => st2
      | (st2, false) => searchLoop p fuel st2

/-- Result of `_dijkstra_bidirectional_search`: `(None, -1)` or
`(full_path, best_distance)`. -/
inductive SearchResult where
  | noPath
  | found (path : List String) (distance : Option Nat)
deriving DecidableEq, Repr

/-- Lookup in a predecessor map (`forward_previous[node]`). -/
def prevLookup (prev : List (String × String × String)) (k : String) :
    Option (String × String) :=
  match prev.find? (fun p => p.1 = k) with
  | some p => some p.2
  | none => none

/-- The forward reconstruction walk (lines 322-329) before the final
`reverse`: from the meeting node along predecessor links to the root.  The
walk is bounded by the predecessor-map size, which covers every acyclic
chain (the only chains reachable runs produce). -/
def walkForward (prev : List (String × String × String)) :
    Nat → String → List String
  | 0, current => [current]
  | fuel + 1, current =>
    match prevLookup prev current with
    | some (predecessor, _) => current :: walkForward prev fuel predecessor
    | none => [current]

/-- The backward reconstruction walk (lines 333-341): the predecessors of the
meeting node on the backward side, meeting node excluded. -/
def walkBackward (prev : List (String × String × String)) :
    Nat → String → List String
  | 0, _ => []
  | fuel + 1, current =>
    match prevLookup prev current with
    | some (predecessor, _) => predecessor :: walkBackward prev fuel predecessor
    | none => []

/-- Assembly of the full path (lines 322-350): forward prefix reversed into
root-to-meeting order, backward suffix appended, whole sequence reversed when
the endpoints were swapped. -/
def buildFullPath (st : SearchState) (swapped : Bool) (meeting : String) :
    List String :=
  let forwardPath := (walkForward st.fPrev st.fPrev.length meeting).reverse
  let backwardPath := walkBackward st.bPrev st.bPrev.length meeting
  let fullPath := forwardPath ++ backwardPath
  if swapped then fullPath.reverse else fullPath

/-- Path reconstruction with the defensive duplicate check (lines 320-361):
`len(full_path) != len(set(full_path))` is the dedup-length test; a corrupted
path degrades to the no-path result. -/
def reconstructPath (st : SearchState) (swapped : Bool) (meeting : String)
    (best : Option Nat) : SearchResult :=
  let fullPath := buildFullPath st swapped meeting
  if fullPath.dedup.length ≠ fullPath.length then .noPath
  else .found fullPath best

/-- The post-loop resolution of `min_distance` plus reconstruction (lines
300-361): an accepted meeting point is reconstructed directly; otherwise a
positive `min_distance` with a recorded fallback meeting point either fails
(strict mode) or reconstructs the fallback shortest path; otherwise no
path. -/
def finishSearch (p : SearchParams) (swapped : Bool) (st : SearchState) :
    SearchResult :=
  match st.meetingNode with
  | some meeting => reconstructPath st swapped meeting st.bestDistance
  | none =>
    match st.shortestMeetingNode with
    | some fallback =>
      if 0 < p.minDistance then
        if p.strictMinDistance then .noPath
        else reconstructPath st swapped fallback st.shortestDistance
      else .noPath
    | none => .noPath

/-- Mirror of `_dijkstra_bidirectional_search` (gedcom_search.py lines
15-361): connectivity pre-check, endpoint swap towards the rarer side,
bidirectional Dijkstra loop, `min_distance` resolution and path
reconstruction.  `fuel` bounds the loop iterations (the source loop
terminates on every finite record set; every claim proved below holds for
every fuel value). -/
def dijkstraBidirectionalSearch (ctx : GedcomCtx) (startId endId : String)
    (allowed : List String) (maxDistance : Nat) (excludeInitial : Bool)
    (minDistance : Nat) (strictMinDistance : Bool) (fuel : Nat) :
    SearchResult :=
  if ctx.hasParser = false then .noPath
  else
    let effectiveMaxDistance := min maxDistance 100
    match checkComponentConnectivity ctx startId endId allowed 50 with
    | some false => .noPath
    | _ =>
      let startNeighbors :=
        getPersonNeighborsLazy ctx startId allowed excludeInitial
      let endNeighbors :=
        getPersonNeighborsLazy ctx endId allowed excludeInitial
      let swapped := endNeighbors.length < startNeighbors.length
      let s := if swapped then endId else startId
      let e := if swapped then startId else endId
      let targetBirthYear := extractBirthYear ctx e
      let startBirthYear := extractBirthYear ctx s
      let p : SearchParams :=
        { ctx := ctx
          allowed := allowed
          startNode := s
          endNode := e
          excludeInitial := excludeInitial
          effectiveMaxDistance := effectiveMaxDistance
          minDistance := minDistance
          strictMinDistance := strictMinDistance
          targetBirthYear := targetBirthYear
          startBirthYear := startBirthYear }
      let st0 : SearchState :=
        { fDist := [(s, 0)]
          bDist := [(e, 0)]
          fPrev := []
          bPrev := []
          fVisited := []
          bVisited := []
          fPq := [mkNodePriority 0 s [s] targetBirthYear]
          bPq := [mkNodePriority 0 e [e] startBirthYear]
          bestDistance := none
          meetingNode := none
          shortestDistance := none
          shortestMeetingNode := none }
      finishSearch p swapped (searchLoop p fuel st0)

/-- Mirror of `_correct_relationship_direction` (gedcom_search.py lines
546-590): orient a raw edge kind from the perspective of `fromPerson`,
refining by the relevant gender. -/
def correctRelationshipDirection (ctx : GedcomCtx) (relType : String)
    (fromPerson toPerson : String) : String :=
  if relType = "spouse" then
    match getPersonRecord ctx toPerson with
    | some details =>
      if details.gender = some "F" then "wife_of"
      else if details.gender = some "M" then "husband_of"
      else "spouse_of"
    | none => "spouse_of"
  else if relType = "sibling" then
    match getPersonRecord ctx fromPerson with
    | some details =>
      if details.gender = some "F" then "sister_of"
      else if details.gender = some "M" then "brother_of"
      else "sibling_of"
    | none => "sibling_of"
  else if relType = "parent" then
    match getPersonRecord ctx toPerson with
    | some details =>
      if details.gender = some "F" then "child_of_mother"
      else if details.gender = some "M" then "child_of_father"
      else "child_of"
    | none => "child_of"
  else if relType = "child" then
    match getPersonRecord ctx fromPerson with
    | some details =>
      if details.gender = some "F" then "mother_of"
      else if details.gender = some "M" then "father_of"
      else "parent_of"
    | none => "parent_of"
  else relType

/-- One iteration of the chain loop of `_generate_relationship_chain_lazy`
(lines 504-541): look for the edge in the forward direction, then in the
reverse direction with parent/child inverted, else `unknown`. -/
def chainStep (ctx : GedcomCtx) (allowed : List String)
    (current nextPerson : String) : String :=
  let neighbors := getPersonNeighborsLazy ctx current allowed false
  match neighbors.find? (fun edge => edge.1 = nextPerson) with
  | some (_, _, relType) =>
    correctRelationshipDirection ctx relType current nextPerson
  | none =>
    let reverseNeighbors := getPersonNeighborsLazy ctx nextPerson allowed false
    match reverseNeighbors.find? (fun edge => edge.1 = current) with
    | some (_, _, relType) =>
      if relType = "parent" then
        correctRelationshipDirection ctx "child" current nextPerson
      else if relType = "child" then
        correctRelationshipDirection ctx "parent" current nextPerson
      else correctRelationshipDirection ctx relType current nextPerson
    | none => "unknown"

/-- Mirror of `_generate_relationship_chain_lazy` (gedcom_search.py lines
497-543): one label per consecutive pair of the path. -/
def generateRelationshipChainLazy (ctx : GedcomCtx) (path : List String)
    (allowed : List String) : List String :=
  if path.length < 2 then []
  else
    (List.range (path.length - 1)).map (fun i =>
      chainStep ctx allowed (path.getD i "") (path.getD (i + 1) ""))

/-- Mirror of `_format_relationship_with_gender` (gedcom_search.py lines
624-669). -/
def formatRelationshipWithGender (ctx : GedcomCtx) (relType : String)
    (fromPersonId toPersonId : String) : String :=
  let _ := toPersonId
  if relType = "child_of_mother" ∨ relType = "child_of_father" ∨
      relType = "child_of" then
    match getPersonRecord ctx fromPersonId with
    | some person =>
      if person.gender = some "M" then "son of"
      else if person.gender = some "F" then "daughter of"
      else "child of"
    | none => "child of"
  else if relType = "mother_of" then "mother of"
  else if relType = "father_of" then "father of"
  else if relType = "parent_of" then "parent of"
  else if relType = "spouse" ∨ relType = "spouse_of" then
    match getPersonRecord ctx fromPersonId with
    | some person =>
      if person.gender = some "M" then "husband of"
      else if person.gender = some "F" then "wife of"
      else "spouse of"
    | none => "spouse of"
  else if relType = "wife_of" then "wife of"
  else if relType = "husband_of" then "husband of"
  else if relType = "sibling" ∨ relType = "sibling_of" then
    match getPersonRecord ctx fromPersonId with
    | some person =>
      if person.gender = some "M" then "brother of"
      else if person.gender = some "F" then "sister of"
      else "sibling_of"
    | none => "sibling_of"
  else if relType = "sister_of" then "sister of"
  else if relType = "brother_of" then "brother of"
  else relType

/-- Display name of a person id as used by the describer (`person.name` or
`"Unknown"`). -/
def displayName (ctx : GedcomCtx) (personId : String) : String :=
  match getPersonRecord ctx personId with
  | some person => person.name
  | none => "Unknown"

/-- Mirror of `_generate_relationship_description` (gedcom_search.py lines
593-621): the joined step-by-step sentence, with the 1-person and 2-person
cases special-cased. -/
def generateRelationshipDescription (ctx : GedcomCtx) (path : List String)
    (relationshipChain : List String) : String :=
  if path.length = 1 then "Same person"
  else
    let personNames := path.map (displayName ctx)
    if path.length = 2 then
      let relDesc := formatRelationshipWithGender ctx
        (relationshipChain.getD 0 "") (path.getD 0 "") (path.getD 1 "")
      let n0 := personNames.getD 0 ""
      let n1 := personNames.getD 1 ""
      s!"{n0} is the {relDesc} {n1}"
    else
      let parts := [personNames.getD 0 ""] ++
        relationshipChain.enum.flatMap (fun pair =>
          let i := pair.1
          let relDesc := formatRelationshipWithGender ctx pair.2
            (path.getD i "") (path.getD (i + 1) "")
          [s!"is the {relDesc}", personNames.getD (i + 1) ""] ++
            (if i < relationshipChain.length - 1 then [", who"] else []))
      String.intercalate " " parts

/-- Mirror of `str.lower()` at the character level (the relationship specs
the parser receives are ASCII). -/
def strToLower (s : String) : String :=
  String.mk (s.data.map Char.toLower)

/-- Whitespace test of `str.strip()` for the characters occurring in
relationship specs. -/
def isSpaceChar (c : Char) : Bool :=
  c = ' ' ∨ c = '\t' ∨ c = '\n' ∨ c = '\r'

/-- Mirror of `str.strip()` at the character level. -/
def strTrim (s : String) : String :=
  String.mk (((s.data.dropWhile isSpaceChar).reverse.dropWhile
    isSpaceChar).reverse)

/-- Character-level splitting on a separator, the semantics of
`str.split(",")`. -/
def splitCharList (sep : Char) : List Char → List (List Char)
  | [] => [[]]
  | c :: rest =>
    match splitCharList sep rest with
    | [] => [[]]
    | h :: t => if c = sep then [] :: h :: t else (c :: h) :: t

/-- Mirror of `s.split(",")`. -/
def splitOnComma (s : String) : List String :=
  (splitCharList ',' s.data).map String.mk

/-- The set-insert used while parsing the relationship filter. -/
def setAdd (acc : List String) (x : String) : List String :=
  if x ∈ acc then acc else acc ++ [x]

/-- The relationship-spec parsing of `find_shortest_relationship_path`
(gedcom_search.py lines 763-803): canonical names for the special specs,
otherwise a comma-split with per-item expansion; unknown items are dropped
with a warning.  The result is the membership set the search consults. -/
def parseAllowedRelationships (allowedRelationships : String) : List String :=
  let lower := strToLower allowedRelationships
  if lower = "all" then ["parent", "spouse", "sibling", "child"]
  else if lower = "default" then ["parent", "spouse", "child"]
  else if lower = "blood" then ["parent", "child"]
  else if lower = "parents" then ["parent"]
  else if lower = "children" then ["child"]
  else
    let raw := ((splitOnComma allowedRelationships).map
      (fun rel => strToLower (strTrim rel))).dedup
    raw.foldl (fun acc rel =>
      if rel = "spouse" then setAdd acc "spouse"
      else if rel = "mother" then setAdd acc "mother"
      else if rel = "father" then setAdd acc "father"
      else if rel = "parents" then setAdd acc "parent"
      else if rel = "children" then setAdd acc "child"
      else if rel = "blood" then setAdd (setAdd acc "parent") "child"
      else if rel = "sibling" then setAdd acc "sibling"
      else if rel = "parent" then setAdd acc "parent"
      else if rel = "child" then setAdd acc "child"
      else if rel = "all" then
        setAdd (setAdd (setAdd (setAdd acc "parent") "spouse") "sibling")
          "child"
      else acc) []

/-- The return shapes of `find_shortest_relationship_path` (gedcom_search.py
lines 701-895).  `noPath` carries the empty chain and the description of the
`distance = -1` dictionary; `selfResult` is the identity short-circuit
(lines 745-751); `found` carries the id/name pairs of `path_with_names`.
The presentation-only entries of the success dictionary (`detailed_path`,
`allowed_relationships` echo, `performance`) are derived output not modelled
here. -/
inductive FindResult where
  | error (msg : String)
  | noPath (relationshipChain : List String) (description : String)
  | selfResult (path : List String) (distance : Int)
      (relationshipChain : List String) (description : String)
  | found (person1 person2 : String × String) (distance : Option Nat)
      (pathWithNames : List (String × String))
      (relationshipChain : List String) (description : String)
deriving DecidableEq, Repr

/-- Mirror of `find_shortest_relationship_path` (gedcom_search.py lines
701-895): existence validation, identity short-circuit, `max_distance`
normalization, filter parsing, bidirectional search (strict mode off), and
chain/description generation. -/
def findShortestRelationshipPath (ctx : GedcomCtx)
    (person1Id person2Id : String) (allowedRelationships : String)
    (maxDistance : Int) (excludeInitialSpouseChildren : Bool)
    (minDistance : Nat) (fuel : Nat) : FindResult :=
  match getPersonRecord ctx person1Id with
  | none => .error s!"Person not found: {person1Id}"
  | some person1 =>
    match getPersonRecord ctx person2Id with
    | none => .error s!"Person not found: {person2Id}"
    | some person2 =>
      if person1Id = person2Id then
        .selfResult [person1Id] 0 ["self"] "Same person"
      else
        let maxD : Nat := if maxDistance < 1 then 30 else maxDistance.toNat
        let allowed := parseAllowedRelationships allowedRelationships
        match dijkstraBidirectionalSearch ctx person1Id person2Id allowed
            maxD excludeInitialSpouseChildren minDistance false fuel with
        | .noPath =>
          if 0 < minDistance then
            .noPath []
              s!"No relationship path found with minimum distance {minDistance} using allowed relationship types: {allowedRelationships}. Try reducing min_distance or using different relationship types."
          else
            .noPath []
              s!"No relationship path found with allowed relationship types: {allowedRelationships}"
        | .found path best =>
          let relationshipChain := generateRelationshipChainLazy ctx path allowed
          let description :=
            generateRelationshipDescription ctx path relationshipChain
          let pathWithNames := path.map (fun pid => (pid, displayName ctx pid))
          .found (person1Id, person1.name) (person2Id, person2.name) best
            pathWithNames relationshipChain description

/-- A path entry of the all-paths enumeration: the dictionary
`{"path": [...], "distance": len(path) - 1}`. -/
abbrev PathInfo := List String × Nat

/-- Python `set(p).issubset(set(q))` on node lists. -/
def nodeSubsetB (p q : List String) : Bool :=
  p.all (fun x => x ∈ q)

/-- The length-ascending stable sort of `_filter_redundant_paths` (line
1042); Python `list.sort` is stable, as is insertion sort. -/
def sortByPathLength (paths : List PathInfo) : List PathInfo :=
  paths.insertionSort (fun a b => a.1.length ≤ b.1.length)

/-- The drop test of the final loop of `_filter_redundant_paths` (lines
1087-1093): entry `i` is dropped when any earlier entry of the sorted list is
a node-set subset of it. -/
def codeDropB (sorted : List PathInfo) (i : Nat) : Bool :=
  (List.range i).any (fun j =>
    nodeSubsetB (sorted.getD j ([], 0)).1 (sorted.getD i ([], 0)).1)

/-- Mirror of `_filter_redundant_paths` (gedcom_search.py lines 1032-1097):
sort by path length, then keep each entry not covered by an earlier one.
The first scanning loop of the source (lines 1046-1078) computes a local
flag that is never read afterwards and mutates nothing, so it has no
observable effect and is omitted; the `gedcom_ctx` parameter is unused in
the source and likewise omitted. -/
def filterRedundantPaths (paths : List PathInfo) : List PathInfo :=
  let sorted := sortByPathLength paths
  (List.range sorted.length).filterMap (fun i =>
    if codeDropB sorted i then none else some (sorted.getD i ([], 0)))

/-- The drop condition as the specification sentence states it, for entries
`j` and `i` of the sorted list: `j` is shorter or equal, its node set is a
subset of that of `i`, and the two share the same two endpoints. -/
def specCondB (sorted : List PathInfo) (j i : Nat) : Bool :=
  (sorted.getD j ([], 0)).1.length ≤ (sorted.getD i ([], 0)).1.length &&
  nodeSubsetB (sorted.getD j ([], 0)).1 (sorted.getD i ([], 0)).1 &&
  (sorted.getD j ([], 0)).1.head? = (sorted.getD i ([], 0)).1.head? &&
  (sorted.getD j ([], 0)).1.getLast? = (sorted.getD i ([], 0)).1.getLast?

/-- Modelled from the spec: the drop flags of the redundancy filter as the
specification describes them, computed left to right — entry `n` is dropped
exactly when some earlier KEPT entry satisfies `specCondB`. -/
def specDropFlags (sorted : List PathInfo) : Nat → List Bool
  | 0 => []
  | n + 1 =>
    let flags := specDropFlags sorted n
    flags ++ [(List.range n).any (fun j =>
      !(flags.getD j true) && specCondB sorted j n)]

/-- Modelled from the spec: the redundancy filter as the specification
sentence describes it (drop an entry exactly when a shorter-or-equal kept
entry with the same two endpoints covers its node set). -/
def specFilterRedundantPaths (paths : List PathInfo) : List PathInfo :=
  let sorted := sortByPathLength paths
  let flags := specDropFlags sorted sorted.length
  (List.range sorted.length).filterMap (fun i =>
    if flags.getD i true then none else some (sorted.getD i ([], 0)))

/-- Paths of the implicit neighbor graph: `NPath ctx allowed a b n` holds
when the forward neighbor function (without the initial-endpoint exclusion)
yields a walk of `n` edges from `a` to `b`.  This is the specification-level
distance structure the monotonicity property is about. -/
inductive NPath (ctx : GedcomCtx) (allowed : List String) :
    String → String → Nat → Prop where
  | refl (a : String) : NPath ctx allowed a a 0
  | step {a b c : String} {w : Nat} {rel : String} {n : Nat}
      (edge : (b, w, rel) ∈ getPersonNeighborsLazy ctx a allowed false)
      (rest : NPath ctx allowed b c n) : NPath ctx allowed a c (n + 1)

/-- Test context builder: a finite record set with consistent lookups; the
display name of each person is their id. -/
def mkCtx (persons : List PersonRelationships) (years : List (String × Int)) :
    GedcomCtx :=
  { hasParser := true
    relsOf := fun pid => persons.find? (fun r => r.id = pid)
    birthYearOf := fun pid => (years.find? (fun p => p.1 = pid)).map (fun p => p.2)
    personOf := fun pid => (persons.find? (fun r => r.id = pid)).map
      (fun r => { id := r.id, name := r.id, gender := r.gender }) }

/-- Concrete nuclear family: father `f`, mother `m`, child `c`, the parents
married to each other. -/
def ctxNuclear : GedcomCtx :=
  mkCtx
    [ { id := "c", gender := some "M", parents := ["f", "m"], spouses := [],
        children := [] }
    , { id := "f", gender := some "M", parents := [], spouses := ["m"],
        children := ["c"] }
    , { id := "m", gender := some "F", parents := [], spouses := ["f"],
        children := ["c"] } ]
    []

/-- Concrete family for the monotonicity counterexample: `s` and `t` are
married; `a` shares parent `p1` with `s` and parent `p2` with `t`, so `a` is
a sibling of both. -/
def ctxMono : GedcomCtx :=
  mkCtx
    [ { id := "s", gender := none, parents := ["p1"], spouses := ["t"],
        children := [] }
    , { id := "t", gender := none, parents := ["p2"], spouses := ["s"],
        children := [] }
    , { id := "a", gender := none, parents := ["p1", "p2"], spouses := [],
        children := [] }
    , { id := "p1", gender := none, parents := [], spouses := [],
        children := ["s", "a"] }
    , { id := "p2", gender := none, parents := [], spouses := [],
        children := ["a", "t"] } ]
    []

/-- Concrete context with known birth years, exercising the heuristic
fields of `NodePriority`. -/
def ctxYears : GedcomCtx :=
  mkCtx
    [ { id := "x", gender := none, parents := [], spouses := ["y"],
        children := [] }
    , { id := "y", gender := none, parents := [], spouses := ["x"],
        children := [] } ]
    [("x", 1950), ("y", 1960)]

/-- The claim-level guard "the sum of the two queues' minimum pending
distances exceeds max_distance * 1.2", with `none` as the infinite pending
minimum of an empty queue and the float comparison carried out exactly as
`5 * sum > 6 * bound`. -/
def minSumExceedsB (mf mb : Option Nat) (maxDistance : Nat) : Bool :=
  match mf, mb with
  | some x, some y => 5 * (x + y) > 6 * maxDistance
  | _, _ => true

/-- A search state whose predecessor maps reconstruct a path with a repeated
node (`u` appears on both sides of the meeting node `m`), exercising the
defensive duplicate check. -/
def stateWithDuplicate : SearchState :=
  { fDist := [("m", 1), ("u", 0)]
    bDist := [("m", 1), ("u", 0)]
    fPrev := [("m", "u", "spouse")]
    bPrev := [("m", "u", "spouse")]
    fVisited := ["u", "m"]
    bVisited := ["u", "m"]
    fPq := []
    bPq := []
    bestDistance := some 2
    meetingNode := some "m"
    shortestDistance := some 2
    shortestMeetingNode := some "m"
  }

/-- Search parameters of a concrete x-y spousal search with
`min_distance = 2`, fallback mode. -/
def paramsMinDistFallback : SearchParams :=
  { ctx := ctxYears
    allowed := ["spouse"]
    startNode := "x"
    endNode := "y"
    excludeInitial := false
    effectiveMaxDistance := 30
    minDistance := 2
    strictMinDistance := false
    targetBirthYear := some 1960
    startBirthYear := some 1950 }

/-- The same parameters with strict `min_distance` mode. -/
def paramsMinDistStrict : SearchParams :=
  { paramsMinDistFallback with strictMinDistance := true }

/-- The post-loop state of the x-y spousal search: the only meeting point has
total distance 1, below `min_distance = 2`, so it was recorded only as the
fallback. -/
def stateMinDistFallback : SearchState :=
  { fDist := [("y", 1), ("x", 0)]
    bDist := [("y", 0)]
    fPrev := [("y", "x", "spouse")]
    bPrev := []
    fVisited := ["x", "y"]
    bVisited := ["y"]
    fPq := []
    bPq := []
    bestDistance := none
    meetingNode := none
    shortestDistance := some 1
    shortestMeetingNode := some "y" }

/-- A state whose two queues both have minimum pending distance 50, far
beyond the distance bound. -/
def stateFarQueues : SearchState :=
  { fDist := []
    bDist := []
    fPrev := []
    bPrev := []
    fVisited := []
    bVisited := []
    fPq := [mkNodePriority 50 "x" ["x"] none]
    bPq := [mkNodePriority 51 "y" ["y"] none]
    bestDistance := none
    meetingNode := none
    shortestDistance := none
    shortestMeetingNode := none }

/-- Parameters with the default bound `max_distance = 30` for the stop-bound
claim. -/
def paramsBound30 : SearchParams :=
  { ctx := ctxYears
    allowed := ["spouse"]
    startNode := "x"
    endNode := "y"
    excludeInitial := false
    effectiveMaxDistance := min 30 100
    minDistance := 0
    strictMinDistance := false
    targetBirthYear := none
    startBirthYear := none }

theorem reconstructPath_found_nodup (st : SearchState) (swapped : Bool)
    (meeting : String) (best : Option Nat) (path : List String)
    (d : Option Nat) (h : reconstructPath st swapped meeting best = .found path d) :
    path.Nodup := by
  simp only [reconstructPath] at h
  split at h
  · exact absurd h (by simp)
  · rename_i hlen
    obtain ⟨rfl, rfl⟩ : buildFullPath st swapped meeting = path ∧ best = d := by
      cases h
      exact ⟨rfl, rfl⟩
    have hlen2 : (buildFullPath st swapped meeting).dedup.length =
        (buildFullPath st swapped meeting).length := by omega
    have heq := (List.dedup_sublist (buildFullPath st swapped meeting)).eq_of_length hlen2
    exact List.dedup_eq_self.mp heq

theorem finishSearch_found_nodup (p : SearchParams) (swapped : Bool)
    (st : SearchState) (path : List String) (d : Option Nat)
    (h : finishSearch p swapped st = .found path d) : path.Nodup := by
  simp only [finishSearch] at h
  split at h
  · exact reconstructPath_found_nodup _ _ _ _ _ _ h
  · split at h
    · split at h
      · split at h
        · exact absurd h (by simp)
        · exact reconstructPath_found_nodup _ _ _ _ _ _ h
      · exact absurd h (by simp)
    · exact absurd h (by simp)

/-- Claim C1: every successful result of `_dijkstra_bidirectional_search`
carries a duplicate-free path, and whenever the path assembled from the
forward and backward predecessor links contains a repeated node the function
degrades to the no-path result instead of returning the corrupted path. -/
theorem claim_c1_no_duplicate_paths :
    (∀ ctx startId endId allowed maxDistance excludeInitial minDistance
        strict fuel path d,
      dijkstraBidirectionalSearch ctx startId endId allowed maxDistance
        excludeInitial minDistance strict fuel = .found path d →
      path.Nodup) ∧
    (∀ st swapped meeting best, ¬(buildFullPath st swapped meeting).Nodup →
      reconstructPath st swapped meeting best = .noPath) := by
  constructor
  · intro ctx startId endId allowed maxDistance excludeInitial minDistance
      strict fuel path d h
    simp only [dijkstraBidirectionalSearch] at h
    split at h
    · exact absurd h (by simp)
    · split at h
      · exact absurd h (by simp)
      · exact finishSearch_found_nodup _ _ _ _ _ h
  · intro st swapped meeting best hdup
    simp only [reconstructPath]
    split
    · rfl
    · rename_i hlen
      have hlen2 : (buildFullPath st swapped meeting).dedup.length =
          (buildFullPath st swapped meeting).length := by omega
      have heq :=
        (List.dedup_sublist (buildFullPath st swapped meeting)).eq_of_length hlen2
      exact absurd (List.dedup_eq_self.mp heq) hdup

/-- Witness for claim C1: a concrete successful search whose path is
duplicate-free, and a concrete predecessor state whose assembled path
repeats a node and therefore degrades to no-path. -/
theorem claim_c1_no_duplicate_paths_witness :
    (dijkstraBidirectionalSearch ctxNuclear "f" "c" ["parent", "child"] 30
        false 0 false 64 = .found ["f", "c"] (some 1) ∧
      (["f", "c"] : List String).Nodup) ∧
    (¬(buildFullPath stateWithDuplicate false "m").Nodup ∧
      reconstructPath stateWithDuplicate false "m" (some 2) = .noPath) :=
  ⟨⟨by decide, claim_c1_no_duplicate_paths.1 ctxNuclear "f" "c"
      ["parent", "child"] 30 false 0 false 64 ["f", "c"] (some 1) (by decide)⟩,
    ⟨by decide, claim_c1_no_duplicate_paths.2 stateWithDuplicate false "m"
      (some 2) (by decide)⟩⟩

/-- Claim C10: the backward-expansion neighbor function returns exactly the
same edge sequence as the forward neighbor function for every person, filter,
context and exclusion flag — the backward search expands the same edges as
the forward search rather than direction-inverted ones. -/
theorem claim_c10_reverse_neighbors_equal_forward :
    ∀ (ctx : GedcomCtx) (personId : String) (allowed : List String)
      (excludeSpouseChildren : Bool),
    getPersonNeighborsLazyReverse ctx personId allowed excludeSpouseChildren =
      getPersonNeighborsLazy ctx personId allowed excludeSpouseChildren :=
  fun _ _ _ _ => rfl

/-- Claim C3 (failing-input evaluation): a frontier entry constructed with
known birth years on both sides still carries the no-data sentinel gap and
the plain accumulated distance as priority key, because `__post_init__` only
sets defaults; `init_heuristics`, which would compute the claimed values
(gap 10 and key `1 + 10/25` here), is never invoked by the search. -/
theorem claim_c3_heuristic_fields_not_computed_at_construction :
    (∀ (d : Nat) (pid : String) (path : List String) (target : Option Int),
      (mkNodePriority d pid path target).birthYearDistance =
        NO_BIRTH_YEAR_PENALTY ∧
      (mkNodePriority d pid path target).adjustedDistance = (d : Rat)) ∧
    extractBirthYear ctxYears "x" = some 1950 ∧
    (mkNodePriority 1 "x" ["y", "x"] (some 1960)).birthYearDistance =
      NO_BIRTH_YEAR_PENALTY ∧
    (mkNodePriority 1 "x" ["y", "x"] (some 1960)).adjustedDistance = 1 ∧
    ((mkNodePriority 1 "x" ["y", "x"] (some 1960)).initHeuristics
        ctxYears).birthYearDistance = 10 ∧
    ((mkNodePriority 1 "x" ["y", "x"] (some 1960)).initHeuristics
        ctxYears).adjustedDistance = 1 + 10 / 25 := by
  refine ⟨fun d pid path target => ⟨rfl, rfl⟩, rfl, rfl,
    by norm_num [mkNodePriority], rfl, ?_⟩
  simp [NodePriority.initHeuristics, mkNodePriority, extractBirthYear, ctxYears,
    mkCtx, BIRTH_YEAR_PROXIMITY_THRESHOLD, BIRTH_YEAR_HEURISTIC_FACTOR,
    HAS_BIRTH_YEAR_BONUS, NO_BIRTH_YEAR_PENALTY]

/-- Claim C2: with the best meeting point unset after the loop, a positive
`min_distance` and a recorded fallback meeting point, strict mode yields the
no-path result while non-strict mode reconstructs the path through the
smallest-total-distance meeting point seen, reporting that fallback distance
(which may be below `min_distance`). -/
theorem claim_c2_min_distance_resolution :
    ∀ (p : SearchParams) (swapped : Bool) (st : SearchState) (m : String),
    st.meetingNode = none → 0 < p.minDistance →
    st.shortestMeetingNode = some m →
    (p.strictMinDistance = true → finishSearch p swapped st = .noPath) ∧
    (p.strictMinDistance = false →
      finishSearch p swapped st =
        reconstructPath st swapped m st.shortestDistance) ∧
    (∀ path d,
      reconstructPath st swapped m st.shortestDistance = .found path d →
      d = st.shortestDistance) := by
  intro p swapped st m h1 h2 h3
  refine ⟨?_, ?_, ?_⟩
  · intro hstrict
    simp [finishSearch, h1, h3, h2, hstrict]
  · intro hstrict
    simp [finishSearch, h1, h3, h2, hstrict]
  · intro path d h
    simp only [reconstructPath] at h
    split at h
    · exact absurd h (by simp)
    · cases h
      rfl

/-- Witness for claim C2: a concrete post-loop state of an x-y spousal
search with `min_distance = 2` whose only meeting point has total distance 1:
strict mode returns no path, fallback mode returns the distance-1 path. -/
theorem claim_c2_min_distance_resolution_witness :
    stateMinDistFallback.meetingNode = none ∧
    0 < paramsMinDistFallback.minDistance ∧
    stateMinDistFallback.shortestMeetingNode = some "y" ∧
    finishSearch paramsMinDistStrict false stateMinDistFallback = .noPath ∧
    finishSearch paramsMinDistFallback false stateMinDistFallback =
      .found ["x", "y"] (some 1) ∧
    stateMinDistFallback.shortestDistance.getD 0 <
      paramsMinDistFallback.minDistance :=
  ⟨rfl, by decide, rfl,
    (claim_c2_min_distance_resolution paramsMinDistStrict false
      stateMinDistFallback "y" rfl (by decide) rfl).1 rfl,
    ((claim_c2_min_distance_resolution paramsMinDistFallback false
      stateMinDistFallback "y" rfl (by decide) rfl).2.1 rfl).trans (by decide),
    by decide⟩

/-- Claim C6: for every person id the provider resolves, the shortest-path
entry point with equal endpoints short-circuits to the identity result,
distance 0 and path `[p]`, for any relationship filter string. -/
theorem claim_c6_identity_result :
    ∀ (ctx : GedcomCtx) (p : String) (allowedRelationships : String)
      (maxDistance : Int) (excludeInitial : Bool) (minDistance fuel : Nat),
    getPersonRecord ctx p ≠ none →
    findShortestRelationshipPath ctx p p allowedRelationships maxDistance
      excludeInitial minDistance fuel =
      .selfResult [p] 0 ["self"] "Same person" := by
  intro ctx p allowedRelationships maxDistance excludeInitial minDistance fuel h
  obtain ⟨details, hdetails⟩ := Option.ne_none_iff_exists'.mp h
  simp [findShortestRelationshipPath, hdetails]

/-- Witness for claim C6: the identity query on a resolvable person of the
nuclear-family context. -/
theorem claim_c6_identity_result_witness :
    getPersonRecord ctxNuclear "f" ≠ none ∧
    findShortestRelationshipPath ctxNuclear "f" "f" "all" 30 false 0 64 =
      .selfResult ["f"] 0 ["self"] "Same person" :=
  ⟨by decide,
    claim_c6_identity_result ctxNuclear "f" "all" 30 false 0 64 (by decide)⟩

theorem pqPopMin_cons_isSome (x : NodePriority) (xs : List NodePriority) :
    (pqPopMin (x :: xs)).isSome := by
  rcases h : pqPopMin xs with _ | ⟨m, rest⟩
  · simp [pqPopMin, h]
  · simp only [pqPopMin, h]
    split <;> simp

theorem pqMinDistance_cons (x : NodePriority) (xs : List NodePriority) :
    ∃ v, pqMinDistance (x :: xs) = some v := by
  simp only [pqMinDistance]
  rcases h : pqPopMin (x :: xs) with _ | ⟨m, rest⟩
  · have := pqPopMin_cons_isSome x xs
    rw [h] at this
    exact absurd this (by simp)
  · exact ⟨m.distance, rfl⟩

theorem addInf_none_right (a : Option Nat) : addInf a none = none := by
  cases a <;> rfl

theorem addInf_none_left (b : Option Nat) : addInf none b = none := by
  cases b <;> rfl

theorem shouldStop_of_minSumExceeds (p : SearchParams) (st : SearchState)
    (maxDistance : Nat) (heff : p.effectiveMaxDistance = min maxDistance 100)
    (hsum : minSumExceedsB (pqMinDistance st.fPq) (pqMinDistance st.bPq)
      maxDistance = true)
    (hne : ¬(st.fPq = [] ∧ st.bPq = [])) :
    shouldStop p st = true := by
  cases hf : st.fPq with
  | nil =>
    have hb : st.bPq ≠ [] := fun hcontra => hne ⟨hf, hcontra⟩
    cases hbd : st.bestDistance with
    | none => simp [shouldStop, hf, hb, hbd]
    | some best =>
      simp [shouldStop, hf, hb, hbd, pqMinDistance, pqPopMin, addInf_none_left]
  | cons x xs =>
    cases hbq : st.bPq with
    | nil =>
      cases hbd : st.bestDistance with
      | none => simp [shouldStop, hf, hbq, hbd]
      | some best =>
        simp [shouldStop, hf, hbq, hbd, pqMinDistance, pqPopMin,
          addInf_none_right]
    | cons y ys =>
      obtain ⟨vf, hvf⟩ := pqMinDistance_cons x xs
      obtain ⟨vb, hvb⟩ := pqMinDistance_cons y ys
      have hvf2 : pqMinDistance st.fPq = some vf := by rw [hf]; exact hvf
      have hvb2 : pqMinDistance st.bPq = some vb := by rw [hbq]; exact hvb
      have h5 : 5 * (vf + vb) > 6 * maxDistance := by
        rw [hvf2, hvb2] at hsum
        simpa [minSumExceedsB] using hsum
      have hcond : st.fPq ≠ [] ∧ st.bPq ≠ [] ∧
          5 * ((pqMinDistance st.fPq).getD 0 +
            (pqMinDistance st.bPq).getD 0) > 6 * p.effectiveMaxDistance := by
        refine ⟨by simp [hf], by simp [hbq], ?_⟩
        rw [hvf2, hvb2, heff]
        simp only [Option.getD_some]
        have hmin : min maxDistance 100 ≤ maxDistance := Nat.min_le_left _ _
        omega
      simp only [shouldStop]
      rw [if_pos hcond]

/-- Claim C7: once the sum of the two queues' minimum pending distances
exceeds `max_distance * 1.2` (empty queues counting as infinite), the loop
stops without expanding another node, for every caller-supplied
`max_distance ≥ 1`; `effective_max_distance = min(max_distance, 100)` is the
capped bound the source compares against, which the exceeded user bound
implies. -/
theorem claim_c7_distance_bound_stops_search :
    ∀ (p : SearchParams) (st : SearchState) (fuel maxDistance : Nat),
    1 ≤ maxDistance →
    p.effectiveMaxDistance = min maxDistance 100 →
    minSumExceedsB (pqMinDistance st.fPq) (pqMinDistance st.bPq)
      maxDistance = true →
    searchLoop p (fuel + 1) st = st := by
  intro p st fuel maxDistance hpos heff hsum
  by_cases hboth : st.fPq = [] ∧ st.bPq = []
  · simp only [searchLoop]
    rw [if_pos hboth]
  · simp only [searchLoop]
    rw [if_neg hboth]
    have hstop := shouldStop_of_minSumExceeds p st maxDistance heff hsum hboth
    simp [hstop]

/-- Witness for claim C7: queues whose minimum pending distances are 50 and
51 under the default bound 30: the loop halts immediately. -/
theorem claim_c7_distance_bound_stops_search_witness :
    1 ≤ 30 ∧
    paramsBound30.effectiveMaxDistance = min 30 100 ∧
    minSumExceedsB (pqMinDistance stateFarQueues.fPq)
      (pqMinDistance stateFarQueues.bPq) 30 = true ∧
    searchLoop paramsBound30 5 stateFarQueues = stateFarQueues :=
  ⟨by decide, rfl, by decide,
    claim_c7_distance_bound_stops_search paramsBound30 stateFarQueues 4 30
      (by decide) rfl (by decide)⟩

theorem generateRelationshipChainLazy_length (ctx : GedcomCtx)
    (path : List String) (allowed : List String) :
    (generateRelationshipChainLazy ctx path allowed).length =
      path.length - 1 := by
  by_cases h : path.length < 2
  · simp only [generateRelationshipChainLazy, if_pos h, List.length_nil]
    omega
  · simp [generateRelationshipChainLazy, if_neg h]

/-- Claim C5 counterexample: the identity result of
`find_shortest_relationship_path` carries the chain `["self"]` of length 1
while its path `[p]` has length 1, so the chain length is not `|path| - 1`
there. -/
theorem claim_c5_counterexample_identity_chain :
    findShortestRelationshipPath ctxNuclear "f" "f" "all" 30 false 0 64 =
      .selfResult ["f"] 0 ["self"] "Same person" ∧
    ¬((["self"] : List String).length = (["f"] : List String).length - 1) :=
  ⟨by decide, by decide⟩

/-- Claim C5 as amended: for every result of
`find_shortest_relationship_path` produced by an actual search (every result
other than the identity short-circuit, whose path is `[p]` with chain
`["self"]` of length 1), the relationship chain has length exactly
`|path| - 1`. -/
theorem claim_c5_chain_length_amended :
    ∀ (ctx : GedcomCtx) (person1Id person2Id allowedRelationships : String)
      (maxDistance : Int) (excludeInitial : Bool) (minDistance fuel : Nat)
      (a b : String × String) (d : Option Nat)
      (pathWithNames : List (String × String)) (chain : List String)
      (description : String),
    findShortestRelationshipPath ctx person1Id person2Id
      allowedRelationships maxDistance excludeInitial minDistance fuel =
      .found a b d pathWithNames chain description →
    chain.length = pathWithNames.length - 1 := by
  intro ctx person1Id person2Id allowedRelationships maxDistance
    excludeInitial minDistance fuel a b d pathWithNames chain description h
  simp only [findShortestRelationshipPath] at h
  split at h
  · exact absurd h (by simp)
  · split at h
    · exact absurd h (by simp)
    · split at h
      · exact absurd h (by simp)
      · split at h
        · split at h
          · exact absurd h (by simp)
          · exact absurd h (by simp)
        · rename_i searchPath best heq
          obtain ⟨rfl, rfl⟩ :
              generateRelationshipChainLazy ctx searchPath
                (parseAllowedRelationships allowedRelationships) = chain ∧
              searchPath.map (fun pid => (pid, displayName ctx pid)) =
                pathWithNames := by
            cases h
            exact ⟨rfl, rfl⟩
          rw [generateRelationshipChainLazy_length, List.length_map]

/-- Witness for the amended claim C5: a concrete found result with a 2-person
path and a 1-label chain. -/
theorem claim_c5_chain_length_amended_witness :
    findShortestRelationshipPath ctxNuclear "f" "c" "blood" 30 false 0 64 =
      .found ("f", "f") ("c", "c") (some 1) [("f", "f"), ("c", "c")]
        ["father_of"] "f is the father of c" ∧
    (["father_of"] : List String).length =
      ([("f", "f"), ("c", "c")] : List (String × String)).length - 1 :=
  ⟨by decide,
    claim_c5_chain_length_amended ctxNuclear "f" "c" "blood" 30 false 0 64
      ("f", "f") ("c", "c") (some 1) [("f", "f"), ("c", "c")] ["father_of"]
      "f is the father of c" (by decide)⟩

/-- Claim C4 counterexample: on a family where `s` and `t` are married and
share the sibling `a`, the filter `{spouse}` yields distance 1 while the
superset filter `{spouse, sibling}` yields distance 2 (the balanced
bidirectional loop settles `a` on both sides and accepts that first meeting
point before the direct spousal meeting is detected), so enabling more
relationship kinds lengthened the returned optimum. -/
theorem claim_c4_counterexample_monotonicity_fails :
    (["spouse"] : List String) ⊆ ["spouse", "sibling"] ∧
    dijkstraBidirectionalSearch ctxMono "s" "t" ["spouse"] 30 false 0 false
      64 = .found ["s", "t"] (some 1) ∧
    dijkstraBidirectionalSearch ctxMono "s" "t" ["spouse", "sibling"] 30
      false 0 false 64 = .found ["s", "a", "t"] (some 2) ∧
    ¬((2 : Nat) ≤ 1) :=
  ⟨by decide, by decide, by decide, by decide⟩

theorem getPersonNeighborsLazy_mono (ctx : GedcomCtx) (personId : String)
    (S1 S2 : List String) (hsub : S1 ⊆ S2) (nb : String) (w : Nat)
    (rel : String)
    (h : (nb, w, rel) ∈ getPersonNeighborsLazy ctx personId S1 false) :
    ∃ rel2, (nb, w, rel2) ∈ getPersonNeighborsLazy ctx personId S2 false := by
  simp only [getPersonNeighborsLazy] at h ⊢
  split at h
  case isFalse => exact absurd h (by simp)
  case isTrue hparser =>
    rw [if_pos hparser]
    cases hrels : getPersonRelationshipsInternal ctx personId with
    | none =>
      rw [hrels] at h
      exact absurd h (by simp)
    | some rels =>
      rw [hrels] at h
      rw [List.mem_append] at h
      rcases h with h | h
      · rw [List.mem_append] at h
        rcases h with h | h
        · rw [List.mem_append] at h
          rcases h with h | h
          · -- parent block
            simp only [parentNeighbors] at h
            split at h
            case isFalse => exact absurd h (by simp)
            case isTrue hgate1 =>
              rw [List.mem_filterMap] at h
              obtain ⟨parentId, hmem, hf⟩ := h
              cases hpr : getPersonRelationshipsInternal ctx parentId with
              | none =>
                rw [hpr] at hf
                exact absurd hf (by simp)
              | some parentRels =>
                rw [hpr] at hf
                have hf2 : (if "parent" ∈ S1 then
                      some (parentId, (1 : Nat), "parent")
                    else if "mother" ∈ S1 ∧ parentRels.gender = some "F" then
                      some (parentId, (1 : Nat), "mother")
                    else if "father" ∈ S1 ∧ parentRels.gender = some "M" then
                      some (parentId, (1 : Nat), "father")
                    else none) = some (nb, w, rel) := hf
                have hout : nb = parentId ∧ w = 1 ∧
                    ("parent" ∈ S2 ∨
                      ("mother" ∈ S2 ∧ parentRels.gender = some "F") ∨
                      ("father" ∈ S2 ∧ parentRels.gender = some "M")) := by
                  by_cases h1 : "parent" ∈ S1
                  · rw [if_pos h1] at hf2
                    obtain ⟨rfl, rfl, rfl⟩ :
                        parentId = nb ∧ 1 = w ∧ "parent" = rel := by
                      simpa using hf2
                    exact ⟨rfl, rfl, Or.inl (hsub h1)⟩
                  · rw [if_neg h1] at hf2
                    by_cases h2 : "mother" ∈ S1 ∧ parentRels.gender = some "F"
                    · rw [if_pos h2] at hf2
                      obtain ⟨rfl, rfl, rfl⟩ :
                          parentId = nb ∧ 1 = w ∧ "mother" = rel := by
                        simpa using hf2
                      exact ⟨rfl, rfl, Or.inr (Or.inl ⟨hsub h2.1, h2.2⟩)⟩
                    · rw [if_neg h2] at hf2
                      by_cases h3 :
                          "father" ∈ S1 ∧ parentRels.gender = some "M"
                      · rw [if_pos h3] at hf2
                        obtain ⟨rfl, rfl, rfl⟩ :
                            parentId = nb ∧ 1 = w ∧ "father" = rel := by
                          simpa using hf2
                        exact ⟨rfl, rfl, Or.inr (Or.inr ⟨hsub h3.1, h3.2⟩)⟩
                      · rw [if_neg h3] at hf2
                        exact absurd hf2 (by simp)
                obtain ⟨rfl, rfl, hgate2⟩ := hout
                have himg : ∃ rel2,
                    (match getPersonRelationshipsInternal ctx nb with
                      | none => none
                      | some parentRels =>
                        if "parent" ∈ S2 then some (nb, (1 : Nat), "parent")
                        else if "mother" ∈ S2 ∧ parentRels.gender = some "F"
                          then some (nb, (1 : Nat), "mother")
                        else if "father" ∈ S2 ∧ parentRels.gender = some "M"
                          then some (nb, (1 : Nat), "father")
                        else none) = some (nb, (1 : Nat), rel2) := by
                  rw [hpr]
                  show ∃ rel2, (if "parent" ∈ S2 then
                      some (nb, (1 : Nat), "parent")
                    else if "mother" ∈ S2 ∧ parentRels.gender = some "F" then
                      some (nb, (1 : Nat), "mother")
                    else if "father" ∈ S2 ∧ parentRels.gender = some "M" then
                      some (nb, (1 : Nat), "father")
                    else none) = some (nb, (1 : Nat), rel2)
                  by_cases h1 : "parent" ∈ S2
                  · exact ⟨"parent", by rw [if_pos h1]⟩
                  · by_cases h2 : "mother" ∈ S2 ∧ parentRels.gender = some "F"
                    · exact ⟨"mother", by rw [if_neg h1, if_pos h2]⟩
                    · by_cases h3 :
                          "father" ∈ S2 ∧ parentRels.gender = some "M"
                      · exact ⟨"father", by rw [if_neg h1, if_neg h2, if_pos h3]⟩
                      · rcases hgate2 with hg | hg | hg
                        · exact absurd hg h1
                        · exact absurd hg h2
                        · exact absurd hg h3
                obtain ⟨rel2, hrel2⟩ := himg
                refine ⟨rel2, ?_⟩
                apply List.mem_append_left
                apply List.mem_append_left
                apply List.mem_append_left
                simp only [parentNeighbors]
                rw [if_pos (by tauto)]
                rw [List.mem_filterMap]
                exact ⟨nb, hmem, hrel2⟩
          · -- child block
            simp only [childNeighbors] at h
            split at h
            case isFalse => exact absurd h (by simp)
            case isTrue hgate1 =>
              rw [List.mem_map] at h
              obtain ⟨childId, hmem, heq⟩ := h
              cases heq
              refine ⟨"child", ?_⟩
              apply List.mem_append_left
              apply List.mem_append_left
              apply List.mem_append_right
              simp only [childNeighbors]
              rw [if_pos ⟨hsub hgate1.1, hgate1.2⟩]
              rw [List.mem_map]
              exact ⟨nb, hmem, rfl⟩
        · -- spouse block
          simp only [spouseNeighbors] at h
          split at h
          case isFalse => exact absurd h (by simp)
          case isTrue hgate1 =>
            rw [List.mem_map] at h
            obtain ⟨spouseId, hmem, heq⟩ := h
            cases heq
            refine ⟨"spouse", ?_⟩
            apply List.mem_append_left
            apply List.mem_append_right
            simp only [spouseNeighbors]
            rw [if_pos ⟨hsub hgate1.1, hgate1.2⟩]
            rw [List.mem_map]
            exact ⟨nb, hmem, rfl⟩
      · -- sibling block
        simp only [siblingNeighbors] at h
        split at h
        case isFalse => exact absurd h (by simp)
        case isTrue hgate1 =>
          rw [List.mem_map] at h
          obtain ⟨siblingId, hmem, heq⟩ := h
          cases heq
          refine ⟨"sibling", ?_⟩
          apply List.mem_append_right
          simp only [siblingNeighbors]
          rw [if_pos (hsub hgate1)]
          rw [List.mem_map]
          exact ⟨nb, hmem, rfl⟩

/-- Claim C4 as amended: the shortest-path structure of the underlying
neighbor graph is monotone in the relationship filter — every walk of the
graph under `S1` is a walk under any superset `S2`, so the true optimum
never lengthens when kinds are added.  (The distance the search procedure
returns is not monotone, per the counterexample: accepting the first
meeting point can report a longer path once extra kinds add edges.) -/
theorem claim_c4_amended_graph_distance_monotone :
    ∀ (ctx : GedcomCtx) (S1 S2 : List String), S1 ⊆ S2 →
    ∀ (a b : String) (n : Nat),
    NPath ctx S1 a b n → NPath ctx S2 a b n := by
  intro ctx S1 S2 hsub a b n h
  induction h with
  | refl a => exact .refl a
  | step edge rest ih =>
    obtain ⟨rel2, h2⟩ :=
      getPersonNeighborsLazy_mono ctx _ S1 S2 hsub _ _ _ edge
    exact .step h2 ih

/-- Witness for the amended claim C4: the spousal edge walk of length 1 from
`s` to `t` under `{spouse}` is also a walk under `{spouse, sibling}`. -/
theorem claim_c4_amended_graph_distance_monotone_witness :
    (["spouse"] : List String) ⊆ ["spouse", "sibling"] ∧
    NPath ctxMono ["spouse", "sibling"] "s" "t" 1 :=
  ⟨by decide,
    claim_c4_amended_graph_distance_monotone ctxMono ["spouse"]
      ["spouse", "sibling"] (by decide) "s" "t" 1
      (@NPath.step ctxMono ["spouse"] "s" "t" "t" 1 "spouse" 0 (by decide)
        (NPath.refl "t"))⟩

theorem enqueueUnvisited_inv :
    ∀ (nbs : List (String × Nat × String)) (q v q2 v2 : List String)
      (x : String),
    enqueueUnvisited nbs q v = (q2, v2) →
    (x ∈ v → x ∈ q) → x ∈ v2 → x ∈ q2 := by
  intro nbs
  induction nbs with
  | nil =>
    intro q v q2 v2 x henq hinv hx
    obtain ⟨rfl, rfl⟩ : q = q2 ∧ v = v2 := by simpa [enqueueUnvisited] using henq
    exact hinv hx
  | cons nb rest ih =>
    intro q v q2 v2 x henq hinv hx
    obtain ⟨nid, wrel⟩ := nb
    simp only [enqueueUnvisited] at henq
    split at henq
    · exact ih q v q2 v2 x henq hinv hx
    · refine ih _ _ q2 v2 x henq ?_ hx
      intro hxv
      rcases List.mem_append.mp hxv with hxv | hxv
      · exact List.mem_append_left _ (hinv hxv)
      · exact List.mem_append_right _ hxv

theorem cccLoop_exhausted_target_not_visited (ctx : GedcomCtx)
    (allowed : List String) (target : String) :
    ∀ (budget : Nat) (queue visited visited2 : List String) (r2 : Nat),
    (target ∈ visited → target ∈ queue) →
    cccLoop ctx allowed target queue visited budget =
      .ended [] visited2 (r2 + 1) →
    target ∉ visited2 := by
  intro budget
  induction budget with
  | zero =>
    intro queue visited visited2 r2 hinv h
    simp [cccLoop] at h
  | succ b ih =>
    intro queue visited visited2 r2 hinv h
    cases queue with
    | nil =>
      simp only [cccLoop] at h
      obtain ⟨hv, -⟩ : visited = visited2 ∧ b + 1 = r2 + 1 := by
        simpa using h
      subst hv
      intro hmem
      exact absurd (hinv hmem) (by simp)
    | cons c rest =>
      simp only [cccLoop] at h
      split at h
      · exact absurd h (by simp)
      · rename_i hc
        rcases henq : enqueueUnvisited
            (getPersonNeighborsLazy ctx c allowed false) rest visited
          with ⟨q2, v2⟩
        rw [henq] at h
        refine ih q2 v2 visited2 r2 ?_ h
        intro hmem
        refine enqueueUnvisited_inv _ _ _ _ _ _ henq ?_ hmem
        intro hv
        rcases List.mem_cons.mp (hinv hv) with h1 | h1
        · exact absurd h1.symm hc
        · exact h1

/-- Claim C8: `check_component_connectivity` performs a bounded unweighted
BFS from the start person; it returns `some true` the moment the end person
is dequeued, `some false` when the frontier is exhausted with budget left
(the end person provably unvisited), and `none` (inconclusive) when the node
budget ran out first. -/
theorem claim_c8_connectivity_probe :
    ∀ (ctx : GedcomCtx) (person1Id person2Id : String)
      (allowed : List String) (maxDepth : Nat),
    person1Id ≠ person2Id →
    (cccLoop ctx allowed person2Id [person1Id] [person1Id] maxDepth =
        .foundTarget →
      checkComponentConnectivity ctx person1Id person2Id allowed maxDepth =
        some true) ∧
    (∀ visited r,
      cccLoop ctx allowed person2Id [person1Id] [person1Id] maxDepth =
        .ended [] visited (r + 1) →
      checkComponentConnectivity ctx person1Id person2Id allowed maxDepth =
        some false) ∧
    (∀ queue visited,
      cccLoop ctx allowed person2Id [person1Id] [person1Id] maxDepth =
        .ended queue visited 0 →
      checkComponentConnectivity ctx person1Id person2Id allowed maxDepth =
        none) := by
  intro ctx person1Id person2Id allowed maxDepth hne
  refine ⟨?_, ?_, ?_⟩
  · intro h
    simp [checkComponentConnectivity, hne, h]
  · intro visited r h
    have hnot : person2Id ∉ visited :=
      cccLoop_exhausted_target_not_visited ctx allowed person2Id maxDepth
        [person1Id] [person1Id] visited r (fun hm => hm) h
    simp [checkComponentConnectivity, hne, h, hnot]
  · intro queue visited h
    simp [checkComponentConnectivity, hne, h]

/-- Witness for claim C8: on the concrete family, the spousal BFS finds `t`,
exhausts its two-person component before the budget when looking for the
unknown `q`, and is inconclusive under a budget of one node. -/
theorem claim_c8_connectivity_probe_witness :
    checkComponentConnectivity ctxMono "s" "t" ["spouse"] 50 = some true ∧
    checkComponentConnectivity ctxMono "s" "q" ["spouse"] 50 = some false ∧
    checkComponentConnectivity ctxMono "s" "t" ["spouse"] 1 = none :=
  ⟨(claim_c8_connectivity_probe ctxMono "s" "t" ["spouse"] 50
      (by decide)).1 (by decide),
    (claim_c8_connectivity_probe ctxMono "s" "q" ["spouse"] 50
      (by decide)).2.1 ["s", "t"] 47 (by decide),
    (claim_c8_connectivity_probe ctxMono "s" "t" ["spouse"] 1
      (by decide)).2.2 ["t"] ["s", "t"] (by decide)⟩

theorem nodeSubsetB_trans {a b c : List String}
    (h1 : nodeSubsetB a b = true) (h2 : nodeSubsetB b c = true) :
    nodeSubsetB a c = true := by
  simp only [nodeSubsetB, List.all_eq_true, decide_eq_true_eq] at *
  intro x hx
  exact h2 x (h1 x hx)

theorem specDropFlags_length (sorted : List PathInfo) :
    ∀ n, (specDropFlags sorted n).length = n := by
  intro n
  induction n with
  | zero => rfl
  | succ m ih => simp [specDropFlags, ih]

theorem specDropFlags_getD_stable (sorted : List PathInfo) :
    ∀ (n j : Nat), j < n →
    (specDropFlags sorted n).getD j true =
      (specDropFlags sorted (j + 1)).getD j true := by
  intro n
  induction n with
  | zero =>
    intro j h
    omega
  | succ m ih =>
    intro j hj
    by_cases hjm : j < m
    · rw [← ih j hjm]
      simp only [specDropFlags]
      rw [List.getD_append _ _ _ _ (by rw [specDropFlags_length]; exact hjm)]
    · have hjEq : j = m := by omega
      subst hjEq
      rfl

theorem specDropFlags_succ_getD (sorted : List PathInfo) (i : Nat) :
    (specDropFlags sorted (i + 1)).getD i true =
      (List.range i).any (fun j =>
        !((specDropFlags sorted i).getD j true) && specCondB sorted j i) := by
  simp only [specDropFlags]
  rw [List.getD_append_right _ _ _ _ (by rw [specDropFlags_length])]
  rw [specDropFlags_length]
  simp

theorem sortByPathLength_sorted (paths : List PathInfo) :
    (sortByPathLength paths).Sorted
      (fun a b : PathInfo => a.1.length ≤ b.1.length) := by
  haveI : IsTotal PathInfo (fun a b => a.1.length ≤ b.1.length) :=
    ⟨fun a b => Nat.le_total _ _⟩
  haveI : IsTrans PathInfo (fun a b => a.1.length ≤ b.1.length) :=
    ⟨fun _ _ _ h1 h2 => Nat.le_trans h1 h2⟩
  exact List.sorted_insertionSort _ paths

theorem sortByPathLength_getD_length_le (paths : List PathInfo) (j i : Nat)
    (hj : j < i) (hi : i < (sortByPathLength paths).length) :
    ((sortByPathLength paths).getD j ([], 0)).1.length ≤
      ((sortByPathLength paths).getD i ([], 0)).1.length := by
  rw [List.getD_eq_getElem _ _ (lt_trans hj hi), List.getD_eq_getElem _ _ hi]
  exact (sortByPathLength_sorted paths).rel_get_of_lt (Fin.mk_lt_mk.mpr hj)

theorem sortByPathLength_getD_mem (paths : List PathInfo) (i : Nat)
    (hi : i < (sortByPathLength paths).length) :
    (sortByPathLength paths).getD i ([], 0) ∈ paths := by
  have hperm := List.perm_insertionSort
    (fun a b : PathInfo => a.1.length ≤ b.1.length) paths
  refine hperm.mem_iff.mp ?_
  rw [List.getD_eq_getElem _ _ hi]
  exact List.getElem_mem hi

theorem codeDropB_eq_specDropFlags (paths : List PathInfo) (s e : String)
    (hends : ∀ p ∈ paths, p.1.head? = some s ∧ p.1.getLast? = some e) :
    ∀ i, i < (sortByPathLength paths).length →
    codeDropB (sortByPathLength paths) i =
      (specDropFlags (sortByPathLength paths) (i + 1)).getD i true := by
  have hends2 : ∀ i, i < (sortByPathLength paths).length →
      ((sortByPathLength paths).getD i ([], 0)).1.head? = some s ∧
      ((sortByPathLength paths).getD i ([], 0)).1.getLast? = some e :=
    fun i hi => hends _ (sortByPathLength_getD_mem paths i hi)
  intro i
  induction i using Nat.strong_induction_on with
  | _ i ih =>
    intro hi
    rw [specDropFlags_succ_getD]
    rcases hcode : codeDropB (sortByPathLength paths) i with _ | _
    · symm
      by_contra hany
      rw [Bool.not_eq_false, List.any_eq_true] at hany
      obtain ⟨j, hjr, hj⟩ := hany
      rw [List.mem_range] at hjr
      rw [Bool.and_eq_true] at hj
      obtain ⟨-, hcond⟩ := hj
      simp only [specCondB, Bool.and_eq_true] at hcond
      have : codeDropB (sortByPathLength paths) i = true := by
        rw [codeDropB, List.any_eq_true]
        exact ⟨j, List.mem_range.mpr hjr, hcond.1.1.2⟩
      rw [hcode] at this
      exact absurd this (by simp)
    · symm
      rw [List.any_eq_true]
      rw [codeDropB, List.any_eq_true] at hcode
      obtain ⟨j, hjr, hsubj⟩ := hcode
      rw [List.mem_range] at hjr
      have hex : ∃ k, k < i ∧
          nodeSubsetB ((sortByPathLength paths).getD k ([], 0)).1
            ((sortByPathLength paths).getD i ([], 0)).1 = true :=
        ⟨j, hjr, hsubj⟩
      obtain ⟨hk0i, hk0sub⟩ := Nat.find_spec hex
      refine ⟨Nat.find hex, List.mem_range.mpr hk0i, ?_⟩
      rw [Bool.and_eq_true, Bool.not_eq_true']
      constructor
      · rw [specDropFlags_getD_stable (sortByPathLength paths) i
          (Nat.find hex) hk0i]
        rw [← ih (Nat.find hex) hk0i (lt_trans hk0i hi)]
        by_contra hk0code
        rw [Bool.not_eq_false] at hk0code
        rw [codeDropB, List.any_eq_true] at hk0code
        obtain ⟨m, hmr, hmsub⟩ := hk0code
        rw [List.mem_range] at hmr
        exact Nat.find_min hex hmr
          ⟨lt_trans hmr hk0i, nodeSubsetB_trans hmsub hk0sub⟩
      · simp only [specCondB, Bool.and_eq_true, decide_eq_true_eq]
        refine ⟨⟨⟨?_, hk0sub⟩, ?_⟩, ?_⟩
        · exact sortByPathLength_getD_length_le paths _ i hk0i hi
        · rw [(hends2 _ (lt_trans hk0i hi)).1, (hends2 i hi).1]
        · rw [(hends2 _ (lt_trans hk0i hi)).2, (hends2 i hi).2]

/-- Claim C9: on path lists all sharing the same two endpoints — the shape
the all-paths DFS enumeration produces, every enumerated path running from
the query start to the query end — the redundancy filter drops a path
exactly when some shorter-or-equal KEPT path with the same two endpoints
covers its node set: `_filter_redundant_paths` coincides with the
specification filter, and in particular no path is dropped because of a kept
path with different endpoints. -/
theorem claim_c9_redundancy_filter :
    ∀ (paths : List PathInfo) (s e : String),
    (∀ p ∈ paths, p.1.head? = some s ∧ p.1.getLast? = some e) →
    filterRedundantPaths paths = specFilterRedundantPaths paths := by
  intro paths s e hends
  simp only [filterRedundantPaths, specFilterRedundantPaths]
  apply List.filterMap_congr
  intro i hi
  rw [List.mem_range] at hi
  rw [codeDropB_eq_specDropFlags paths s e hends i hi]
  rw [← specDropFlags_getD_stable (sortByPathLength paths)
    (sortByPathLength paths).length i hi]

/-- Witness for claim C9: three concrete a-to-b paths; the two longer ones
are covered by the two-node path and dropped by both the source filter and
the specification filter. -/
theorem claim_c9_redundancy_filter_witness :
    (∀ p ∈ ([(["a", "b"], 1), (["a", "c", "b"], 2),
        (["a", "d", "e", "b"], 3)] : List PathInfo),
      p.1.head? = some "a" ∧ p.1.getLast? = some "b") ∧
    filterRedundantPaths
        [(["a", "b"], 1), (["a", "c", "b"], 2), (["a", "d", "e", "b"], 3)] =
      specFilterRedundantPaths
        [(["a", "b"], 1), (["a", "c", "b"], 2), (["a", "d", "e", "b"], 3)] ∧
    filterRedundantPaths
        [(["a", "b"], 1), (["a", "c", "b"], 2), (["a", "d", "e", "b"], 3)] =
      [(["a", "b"], 1)] :=
  ⟨by decide,
    claim_c9_redundancy_filter
      [(["a", "b"], 1), (["a", "c", "b"], 2), (["a", "d", "e", "b"], 3)]
      "a" "b" (by decide),
    by decide⟩
